import Mathlib

/-!
Verification development for the DHT11/DHT22 single-wire sensor driver
(`src/dhtxx.c`, `src/include/dhtxx/dhtxx.h`).

Shallow embedding conventions:
* The GPIO line is a stream `line : Nat → Bool` giving the level returned by
  the n-th call to `GPIO_INPUT_GET` (calls are ≈1 µs apart; delays with no
  read in between do not consume stream positions).
* C `int` values hold only small non-negative quantities on the paths the
  claims touch, so they are embedded as `Nat`; `x & 0xFF` is `x &&& 0xFF`.
* C `float` arithmetic is embedded as exact rational arithmetic (`ℚ`): the
  scaling formulas `(hi*256+lo)/10` are stated over `ℚ`.
* The local array `int data[100]` is embedded as a total function
  `Nat → Nat`; the source initialises only `data[0..4]`, so the remaining
  entries start from an arbitrary garbage function `g`.
-/

/-- Type `DHTType` from `dhtxx.h`: the two supported sensor variants. -/
inductive DHTType where
  | DHT11
  | DHT22
deriving DecidableEq, Repr

export DHTType (DHT11 DHT22)

/-- Struct `DHT_Sensor` from `dhtxx.h`: pin number plus variant. -/
structure DHT_Sensor where
  pin : Nat
  type : DHTType
deriving DecidableEq, Repr

/-- Struct `DHT_Sensor_Output` from `dhtxx.h`; the two float fields are embedded
as exact rationals. -/
structure DHT_Sensor_Output where
  temperature : ℚ
  humidity : ℚ
deriving DecidableEq, Repr

/-- Constant `DHT_MAXTIMINGS` (10000) from `dhtxx.c`. -/
def DHT_MAXTIMINGS : Nat := 10000

/-- Constant `DHT_BREAKTIME` (20) from `dhtxx.c`. -/
def DHT_BREAKTIME : Nat := 20

/-- Constant `DHT_MAXCOUNT` (32000) from `dhtxx.c`. -/
def DHT_MAXCOUNT : Nat := 32000

/-- Function `scale_humidity` from `dhtxx.c`: DHT11 returns `data[0]` directly,
DHT22 returns `(data[0]*256 + data[1]) / 10.0` (float as exact `ℚ`). -/
def scale_humidity (sensor_type : DHTType) (d0 d1 : Nat) : ℚ :=
  match sensor_type with
  | DHT11 => (d0 : ℚ)
  | DHT22 =>
      let humidity : ℚ := (d0 : ℚ) * 256 + (d1 : ℚ)
      humidity / 10

/-- Function `scale_temperature` from `dhtxx.c`: DHT11 returns `data[2]` directly;
DHT22 takes `data[2] & 0x7f` as magnitude high byte, combines with
`data[3]`, divides by 10 and negates when `data[2] & 0x80` is set. -/
def scale_temperature (sensor_type : DHTType) (d2 d3 : Nat) : ℚ :=
  match sensor_type with
  | DHT11 => (d2 : ℚ)
  | DHT22 =>
      let temperature : ℚ := ((d2 &&& 0x7f : Nat) : ℚ)
      let temperature := temperature * 256
      let temperature := temperature + (d3 : ℚ)
      let temperature := temperature / 10
      if d2 &&& 0x80 ≠ 0 then -temperature else temperature

/-- Result of one read attempt, distinguishing the `return false` sites of
`dht_read` by the diagnostics each one prints: the initial-wait timeout,
the too-few-bits failure (with the bit count `j`), and the checksum failure
(with `data[4]` as expected value and the computed sum). -/
inductive DhtResult where
  | timeout
  | insufficientBits (j : Nat)
  | checksumMismatch (expected computed : Nat)
  | ok (temperature humidity : ℚ)
deriving DecidableEq, Repr

/-- Whether a result is the success case. -/
def DhtResult.isOk : DhtResult → Bool
  | .ok _ _ => true
  | _ => false

/-- The interpretation step of `dht_read` (lines 119–135 of `dhtxx.c`),
factored over the five raw bytes: compute
`checksum = (data[0]+data[1]+data[2]+data[3]) & 0xFF`, compare with
`data[4]`, and scale on success. -/
def interpret (sensor_type : DHTType) (r0 r1 r2 r3 r4 : Nat) : DhtResult :=
  let checksum := (r0 + r1 + r2 + r3) &&& 0xFF
  if r4 = checksum then
    .ok (scale_temperature sensor_type r2 r3) (scale_humidity sensor_type r0 r1)
  else
    .checksumMismatch r4 checksum

/-- The stored bit for a measured high-time `counter`:
`if (counter > DHT_BREAKTIME) data[j/8] |= 1` in `dhtxx.c`. -/
def bitOf (counter : Nat) : Nat :=
  if DHT_BREAKTIME < counter then 1 else 0

/-- One bit-storing write of the capture loop:
`data[j/8] <<= 1; if (...) data[j/8] |= 1;` — shift the byte holding bit
`j` left by one and bring in `bit`. -/
def packStep (d : Nat → Nat) (j bit : Nat) : Nat → Nat :=
  fun k => if k = j / 8 then 2 * d (j / 8) + bit else d k

/-- The initial-wait loop of `dht_read`:
`while (GPIO_INPUT_GET(pin) && i < DHT_MAXCOUNT) { os_delay_us(1); i++; }`.
The n-th condition evaluation reads `line n` with `i = n`; returns the
final value of `i`. -/
def waitLowAux (line : Nat → Bool) : Nat → Nat → Nat
  | 0, i => i
  | fuel + 1, i =>
      if line i = true ∧ i < DHT_MAXCOUNT then waitLowAux line fuel (i + 1) else i

/-- The initial wait, run with enough fuel to cover the `DHT_MAXCOUNT`
iteration bound. -/
def waitLow (line : Nat → Bool) : Nat :=
  waitLowAux line (DHT_MAXCOUNT + 1) 0

/-- The inner `while (GPIO_INPUT_GET(pin) == laststate)` loop of the capture
phase, including its `if (counter == 1000) break` stall cap. Arguments are
the remaining fuel (started at 1000), the index of the next read and the
current `counter`; the result is the final `counter` together with the
index of the next unconsumed read. -/
def countLevelAux (line : Nat → Bool) (laststate : Bool) : Nat → Nat → Nat → Nat × Nat
  | 0, t, counter => (counter, t)
  | fuel + 1, t, counter =>
      if line t = laststate then
        if counter + 1 = 1000 then (1000, t + 1)
        else countLevelAux line laststate fuel (t + 1) (counter + 1)
      else (counter, t + 1)

/-- One level measurement: the C loop starts from `counter = 0` and can run
at most 1000 matching reads. -/
def countLevel (line : Nat → Bool) (laststate : Bool) (t : Nat) : Nat × Nat :=
  countLevelAux line laststate 1000 t 0

/-- State of the capture loop: next read index, `laststate`, bit count `j`,
and the `data` array as a total function. -/
structure CapSt where
  t : Nat
  laststate : Bool
  j : Nat
  data : Nat → Nat

/-- The capture loop `for (i = 0; i < DHT_MAXTIMINGS; i++)` of `dht_read`:
measure the current level's duration, re-read `laststate`, break on a
1000-poll stall, and for transitions with `i > 3 && i % 2 == 0` shift one
bit into `data[j/8]` and increment `j`. -/
def captureAux (line : Nat → Bool) : Nat → Nat → CapSt → CapSt
  | 0, _, s => s
  | fuel + 1, i, s =>
      let p := countLevel line s.laststate s.t
      let ls := line p.2
      let t2 := p.2 + 1
      if p.1 = 1000 then { s with t := t2, laststate := ls }
      else
        let s2 : CapSt :=
          if 3 < i ∧ i % 2 = 0 then
            { t := t2, laststate := ls, j := s.j + 1,
              data := packStep s.data s.j (bitOf p.1) }
          else { s with t := t2, laststate := ls }
        captureAux line fuel (i + 1) s2

/-- The `data` array right after `data[0] = data[1] = data[2] = data[3] =
data[4] = 0;`: entries 0–4 are zero, the rest keep their garbage values
`g`. -/
def initData (g : Nat → Nat) : Nat → Nat :=
  fun k => if k < 5 then 0 else g k

/-- The capture phase as entered from `dht_read`: `laststate = 1`, `j = 0`,
`i` from 0, first read at stream index `t0`. -/
def captureRun (line : Nat → Bool) (g : Nat → Nat) (t0 : Nat) : CapSt :=
  captureAux line DHT_MAXTIMINGS 0 ⟨t0, true, 0, initData g⟩

/-- Function `dht_read` from `dhtxx.c`, with the failure sites distinguished as
`DhtResult` values; the second component is the caller's output structure
after the call (written only on the success path). -/
def dht_read_full (sensor : DHT_Sensor) (output : DHT_Sensor_Output)
    (line : Nat → Bool) (g : Nat → Nat) : DhtResult × DHT_Sensor_Output :=
  let i := waitLow line
  if i = DHT_MAXCOUNT then (.timeout, output)
  else
    let s := captureRun line g (i + 1)
    if 39 ≤ s.j then
      match interpret sensor.type (s.data 0) (s.data 1) (s.data 2) (s.data 3) (s.data 4) with
      | .ok temperature humidity => (.ok temperature humidity, ⟨temperature, humidity⟩)
      | r => (r, output)
    else (.insufficientBits s.j, output)

/-- The C signature of `dht_read`: a boolean success flag plus the output
structure after the call. -/
def dht_read (sensor : DHT_Sensor) (output : DHT_Sensor_Output)
    (line : Nat → Bool) (g : Nat → Nat) : Bool × DHT_Sensor_Output :=
  let r := dht_read_full sensor output line g
  (r.1.isOk, r.2)

/-! ### Observation functions on the capture loop

`countersFrom` and `bitsFrom` replay the capture loop of `dht_read` and
record, respectively, the `(i, counter)` pair of every completed outer
iteration and the bit values actually stored.  `packList` replays the
sequence of `packStep` writes.  They exist so that theorems can speak
about the order of writes the loop performs. -/

/-- The `(i, counter)` trace of the capture loop: one entry per outer
iteration that completes without hitting the 1000-poll stall cap. -/
def countersFrom (line : Nat → Bool) : Nat → Nat → Nat → Bool → List (Nat × Nat)
  | 0, _, _, _ => []
  | fuel + 1, i, t, ls =>
      let p := countLevel line ls t
      if p.1 = 1000 then []
      else (i, p.1) :: countersFrom line fuel (i + 1) (p.2 + 1) (line p.2)

/-- The bits stored by the capture loop, in storage order: one bit per
iteration with `i > 3 && i % 2 == 0`. -/
def bitsFrom (line : Nat → Bool) : Nat → Nat → Nat → Bool → List Nat
  | 0, _, _, _ => []
  | fuel + 1, i, t, ls =>
      let p := countLevel line ls t
      if p.1 = 1000 then []
      else if 3 < i ∧ i % 2 = 0 then
        bitOf p.1 :: bitsFrom line fuel (i + 1) (p.2 + 1) (line p.2)
      else bitsFrom line fuel (i + 1) (p.2 + 1) (line p.2)

/-- Replay a sequence of `packStep` writes, the k-th list element being
stored as bit number `j + k`. -/
def packList (d : Nat → Nat) (j : Nat) : List Nat → (Nat → Nat)
  | [] => d
  | b :: bs => packList (packStep d j b) (j + 1) bs

/-- MSB-first value of a bit list shifted into the accumulator `a`. -/
def byteValFrom (a : Nat) (bs : List Nat) : Nat :=
  bs.foldl (fun acc bit => 2 * acc + bit) a

/-- Number of bit-storing iterations (`i > 3 && i % 2 == 0`) among the
outer-loop indices `i, i+1, …, i+fuel-1`. -/
def storeCount : Nat → Nat → Nat
  | 0, _ => 0
  | fuel + 1, i => (if 3 < i ∧ i % 2 = 0 then 1 else 0) + storeCount fuel (i + 1)

/-! ### Concrete input streams used as test vectors -/

/-- A line trace: low at read 0, then alternating (high on even reads)
through read 162, then permanently high.  The capture loop completes 81
transitions (39 of them bit-storing) and then stalls. -/
def lineStall39 (n : Nat) : Bool :=
  (decide (n ≠ 0) && decide (n % 2 = 0)) || decide (163 ≤ n)

/-- A line trace: low at read 0, then alternating forever (high on even
reads).  The capture loop never stalls and runs all 10000 iterations. -/
def lineOsc (n : Nat) : Bool :=
  decide (n ≠ 0) && decide (n % 2 = 0)

/-! ### Helper lemmas -/

/-- Masking with `0xFF` is reduction mod 256. -/
lemma and_255_eq_mod (x : Nat) : x &&& 0xFF = x % 256 := by
  have h := Nat.and_pow_two_sub_one_eq_mod x 8
  norm_num at h
  exact h

/-! ### C1: checksum gate of the interpretation step -/

/-- C1: for every 5-byte raw frame reaching the interpretation step, a
Reading is produced exactly when `raw[4] = (raw[0]+raw[1]+raw[2]+raw[3])
mod 256`; otherwise the read fails with a checksum mismatch reporting
`raw[4]` as expected and the computed sum as computed. -/
theorem checksum_gate (ty : DHTType) (r0 r1 r2 r3 r4 : Nat) :
    ((∃ temperature humidity,
        interpret ty r0 r1 r2 r3 r4 = .ok temperature humidity) ↔
      r4 = (r0 + r1 + r2 + r3) % 256)
    ∧ (r4 ≠ (r0 + r1 + r2 + r3) % 256 →
        interpret ty r0 r1 r2 r3 r4 =
          .checksumMismatch r4 ((r0 + r1 + r2 + r3) % 256)) := by
  unfold interpret
  rw [and_255_eq_mod]
  by_cases h : r4 = (r0 + r1 + r2 + r3) % 256 <;> simp [h]

/-- Witness for C1 at a concrete mismatching frame. -/
theorem checksum_gate_case :
    interpret DHT22 2 26 1 5 33 = .checksumMismatch 33 34 :=
  (checksum_gate DHT22 2 26 1 5 33).2 (by decide)

/-! ### C2: DHT22 (variant B) scaling -/

/-- C2: for variant B and every frame passing the checksum, humidity is
`(raw[0]*256 + raw[1])/10` and temperature is
`((raw[2] & 0x7F)*256 + raw[3])/10`, negated exactly when bit `0x80` of
`raw[2]` is set (sign-magnitude). -/
theorem dht22_scaling (r0 r1 r2 r3 r4 : Nat)
    (hcs : r4 = (r0 + r1 + r2 + r3) % 256) :
    interpret DHT22 r0 r1 r2 r3 r4 =
      .ok (if r2 &&& 0x80 ≠ 0 then
             -((((r2 &&& 0x7F) * 256 + r3 : Nat) : ℚ) / 10)
           else (((r2 &&& 0x7F) * 256 + r3 : Nat) : ℚ) / 10)
          (((r0 * 256 + r1 : Nat) : ℚ) / 10) := by
  subst hcs
  unfold interpret
  rw [and_255_eq_mod]
  simp only [if_pos rfl]
  unfold scale_temperature scale_humidity
  by_cases hs : r2 &&& 0x80 ≠ 0 <;> simp [hs]

/-- Witness for C2 at the frame `[0x02, 0x1A, 0x01, 0x05, 0x22]`:
humidity 53.8 %, temperature 26.1 °C. -/
theorem dht22_scaling_case :
    interpret DHT22 2 26 1 5 34 = .ok (261 / 10 : ℚ) (269 / 5 : ℚ) := by
  rw [dht22_scaling 2 26 1 5 34 (by decide)]
  norm_num

/-! ### C3: DHT11 (variant A) pass-through -/

/-- C3: for variant A and any bytes `h, t`, the checksum-valid frame
`[h, 0, t, 0, (h+t) mod 256]` yields humidity exactly `h` and temperature
exactly `t`, and `raw[1]`, `raw[3]` never affect the variant-A scaling. -/
theorem dht11_passthrough (h t r1 r3 : Nat) (_hh : h < 256) (_ht : t < 256) :
    interpret DHT11 h 0 t 0 ((h + t) % 256) = .ok (t : ℚ) (h : ℚ)
    ∧ scale_humidity DHT11 h r1 = (h : ℚ)
    ∧ scale_temperature DHT11 t r3 = (t : ℚ) := by
  refine ⟨?_, rfl, rfl⟩
  unfold interpret
  rw [and_255_eq_mod]
  norm_num
  exact ⟨rfl, rfl⟩

/-- Witness for C3 at `h = 37`, `t = 21`. -/
theorem dht11_passthrough_case :
    interpret DHT11 37 0 21 0 58 = .ok (21 : ℚ) (37 : ℚ) :=
  (dht11_passthrough 37 21 0 0 (by decide) (by decide)).1

/-! ### C7: breaktime threshold -/

/-- C7: the stored bit is 1 exactly when the measured duration strictly
exceeds the breaktime threshold of 20 polls, and 0 otherwise; a duration of
exactly 20 decodes to 0 and 21 to 1. -/
theorem breaktime_threshold (counter : Nat) :
    (bitOf counter = 1 ↔ DHT_BREAKTIME < counter)
    ∧ (bitOf counter = 0 ↔ counter ≤ 20)
    ∧ bitOf 20 = 0 ∧ bitOf 21 = 1 := by
  unfold bitOf DHT_BREAKTIME
  by_cases h : 20 < counter <;> simp [h] <;> omega

/-! ### Wait-loop helper lemmas -/

/-- If the line stays high for the first `DHT_MAXCOUNT` polls, the wait
loop runs to its iteration cap. -/
lemma waitLowAux_all_high (line : Nat → Bool)
    (hl : ∀ n, n < DHT_MAXCOUNT → line n = true) :
    ∀ fuel i, i + fuel = DHT_MAXCOUNT + 1 → i ≤ DHT_MAXCOUNT →
      waitLowAux line fuel i = DHT_MAXCOUNT := by
  intro fuel
  induction fuel with
  | zero => intro i h1 h2; unfold waitLowAux; omega
  | succ fuel ih =>
      intro i h1 h2
      unfold waitLowAux
      by_cases hi : i < DHT_MAXCOUNT
      · rw [if_pos ⟨hl i hi, hi⟩]
        exact ih (i + 1) (by omega) (by omega)
      · have : i = DHT_MAXCOUNT := by omega
        simp [this]

/-- If some poll within the bound reads low, the wait loop stops strictly
before the cap. -/
lemma waitLowAux_low (line : Nat → Bool) :
    ∀ fuel i n, i ≤ n → n < DHT_MAXCOUNT → line n = false →
      DHT_MAXCOUNT + 1 ≤ i + fuel → waitLowAux line fuel i < DHT_MAXCOUNT := by
  intro fuel
  induction fuel with
  | zero => intro i n h1 h2 h3 h4; omega
  | succ fuel ih =>
      intro i n h1 h2 h3 h4
      unfold waitLowAux
      by_cases hc : line i = true ∧ i < DHT_MAXCOUNT
      · rw [if_pos hc]
        have hne : i ≠ n := by
          intro he; rw [he, h3] at hc; exact Bool.false_ne_true hc.1
        exact ih (i + 1) n (by omega) h2 h3 (by omega)
      · rw [if_neg hc]
        rcases Nat.lt_or_ge i DHT_MAXCOUNT with h | h
        · exact h
        · have : i = n := by omega
          omega

/-- Lemma: `interpret` produces only a Reading or a checksum mismatch. -/
lemma interpret_ne_timeout (ty : DHTType) (r0 r1 r2 r3 r4 : Nat) :
    interpret ty r0 r1 r2 r3 r4 ≠ .timeout := by
  by_cases h : r4 = (r0 + r1 + r2 + r3) &&& 0xFF <;> simp [interpret, h]

/-- Every branch of `dht_read` either succeeds or hands the caller's
output structure back untouched. -/
lemma dht_read_full_out (sensor : DHT_Sensor) (out : DHT_Sensor_Output)
    (line : Nat → Bool) (g : Nat → Nat) :
    (dht_read_full sensor out line g).1.isOk = true
    ∨ (dht_read_full sensor out line g).2 = out := by
  by_cases hw : waitLow line = DHT_MAXCOUNT
  · right; simp [dht_read_full, hw]
  · by_cases hj : 39 ≤ (captureRun line g (waitLow line + 1)).j
    · cases hI : interpret sensor.type
          ((captureRun line g (waitLow line + 1)).data 0)
          ((captureRun line g (waitLow line + 1)).data 1)
          ((captureRun line g (waitLow line + 1)).data 2)
          ((captureRun line g (waitLow line + 1)).data 3)
          ((captureRun line g (waitLow line + 1)).data 4) with
      | timeout => right; simp [dht_read_full, hw, hj, hI]
      | insufficientBits j => right; simp [dht_read_full, hw, hj, hI]
      | checksumMismatch e c => right; simp [dht_read_full, hw, hj, hI]
      | ok a b => left; simp [dht_read_full, hw, hj, hI, DhtResult.isOk]
    · right; simp [dht_read_full, hw, hj]

/-! ### C6: timeout on the initial wait -/

/-- C6: if the line never reads low during the first `DHT_MAXCOUNT` polls,
the wait loop stops after exactly 32000 one-microsecond polls and the read
fails with `Timeout` (no Reading); if the line drops low within the bound,
the read proceeds past the wait (its result is never `Timeout`). -/
theorem timeout_failure (sensor : DHT_Sensor) (out : DHT_Sensor_Output)
    (line : Nat → Bool) (g : Nat → Nat) :
    ((∀ n, n < DHT_MAXCOUNT → line n = true) →
        waitLow line = DHT_MAXCOUNT
        ∧ dht_read_full sensor out line g = (.timeout, out)
        ∧ (dht_read sensor out line g).1 = false)
    ∧ ((∃ n, n < DHT_MAXCOUNT ∧ line n = false) →
        waitLow line < DHT_MAXCOUNT
        ∧ (dht_read_full sensor out line g).1 ≠ .timeout) := by
  constructor
  · intro hl
    have hw : waitLow line = DHT_MAXCOUNT :=
      waitLowAux_all_high line hl (DHT_MAXCOUNT + 1) 0 rfl (by omega)
    refine ⟨hw, ?_, ?_⟩ <;> simp [dht_read_full, dht_read, hw, DhtResult.isOk]
  · rintro ⟨n, hn, hlow⟩
    have hw : waitLow line < DHT_MAXCOUNT :=
      waitLowAux_low line (DHT_MAXCOUNT + 1) 0 n (by omega) hn hlow (by omega)
    refine ⟨hw, ?_⟩
    have hne : waitLow line ≠ DHT_MAXCOUNT := by omega
    by_cases hj : 39 ≤ (captureRun line g (waitLow line + 1)).j
    · cases hI : interpret sensor.type
          ((captureRun line g (waitLow line + 1)).data 0)
          ((captureRun line g (waitLow line + 1)).data 1)
          ((captureRun line g (waitLow line + 1)).data 2)
          ((captureRun line g (waitLow line + 1)).data 3)
          ((captureRun line g (waitLow line + 1)).data 4) with
      | timeout => exact absurd hI (interpret_ne_timeout _ _ _ _ _ _)
      | insufficientBits j => simp [dht_read_full, hne, hj, hI]
      | checksumMismatch e c => simp [dht_read_full, hne, hj, hI]
      | ok a b => simp [dht_read_full, hne, hj, hI]
    · simp [dht_read_full, hne, hj]

/-- Witness for C6: the constantly-high line. -/
theorem timeout_failure_case :
    waitLow (fun _ => true) = DHT_MAXCOUNT
    ∧ dht_read_full ⟨2, DHT11⟩ ⟨5, 7⟩ (fun _ => true) (fun _ => 0) = (.timeout, ⟨5, 7⟩)
    ∧ (dht_read ⟨2, DHT11⟩ ⟨5, 7⟩ (fun _ => true) (fun _ => 0)).1 = false :=
  (timeout_failure ⟨2, DHT11⟩ ⟨5, 7⟩ (fun _ => true) (fun _ => 0)).1 (fun _ _ => rfl)

/-! ### C5: insufficient bits -/

/-- C5: whenever the wait phase succeeds but the capture loop collects
fewer than 39 bits, the read fails with `InsufficientBits` carrying the
collected count, and no Reading is produced. -/
theorem insufficient_bits_failure (sensor : DHT_Sensor) (out : DHT_Sensor_Output)
    (line : Nat → Bool) (g : Nat → Nat)
    (hw : waitLow line ≠ DHT_MAXCOUNT)
    (hj : (captureRun line g (waitLow line + 1)).j < 39) :
    dht_read_full sensor out line g =
      (.insufficientBits ((captureRun line g (waitLow line + 1)).j), out)
    ∧ (dht_read sensor out line g).1 = false := by
  have h1 : dht_read_full sensor out line g =
      (.insufficientBits ((captureRun line g (waitLow line + 1)).j), out) := by
    simp [dht_read_full, hw, Nat.not_le.mpr hj]
  exact ⟨h1, by simp [dht_read, h1, DhtResult.isOk]⟩

set_option maxRecDepth 100000 in
/-- Witness for C5: a line that drops low immediately and then stalls; 0
bits are collected. -/
theorem insufficient_bits_failure_case :
    dht_read_full ⟨2, DHT11⟩ ⟨5, 7⟩ (fun _ => false) (fun _ => 0) =
      (.insufficientBits
        ((captureRun (fun _ => false) (fun _ => 0) (waitLow (fun _ => false) + 1)).j), ⟨5, 7⟩)
    ∧ (dht_read ⟨2, DHT11⟩ ⟨5, 7⟩ (fun _ => false) (fun _ => 0)).1 = false :=
  insufficient_bits_failure ⟨2, DHT11⟩ ⟨5, 7⟩ (fun _ => false) (fun _ => 0)
    (by decide) (by decide)

/-! ### C9: output untouched on failure -/

/-- C9: whenever the read returns `false` — timeout, insufficient bits or
checksum mismatch — the caller's output structure is returned completely
unmodified. -/
theorem output_unchanged_on_failure (sensor : DHT_Sensor) (out : DHT_Sensor_Output)
    (line : Nat → Bool) (g : Nat → Nat)
    (hf : (dht_read sensor out line g).1 = false) :
    (dht_read sensor out line g).2 = out := by
  rcases dht_read_full_out sensor out line g with h | h
  · exact absurd hf (by simp [dht_read, h])
  · simp [dht_read, h]

set_option maxRecDepth 100000 in
/-- Witness for C9 on the failing all-low line. -/
theorem output_unchanged_on_failure_case :
    (dht_read ⟨3, DHT22⟩ ⟨11, 13⟩ (fun _ => false) (fun _ => 0)).2 = ⟨11, 13⟩ :=
  output_unchanged_on_failure ⟨3, DHT22⟩ ⟨11, 13⟩ (fun _ => false) (fun _ => 0)
    (by decide)

/-! ### C4: a Reading can be produced from exactly 39 captured bits -/

set_option maxRecDepth 100000 in
/-- C4 (refuting the ≥40 claim, in line with the source's own
`should be at least 40` message): on the trace `lineStall39` the capture
loop stores exactly 39 bits, yet `dht_read` returns `true` with a
Reading. -/
theorem read_accepts_39_bits :
    waitLow lineStall39 = 0
    ∧ (captureRun lineStall39 (fun _ => 0) 1).j = 39
    ∧ dht_read ⟨2, DHT11⟩ ⟨5, 7⟩ lineStall39 (fun _ => 0) = (true, ⟨0, 0⟩) := by
  decide

/-! ### Capture-loop refinement lemmas -/

/-- The capture loop advances `j` by the number of stored bits and applies
exactly the corresponding sequence of `packStep` writes. -/
lemma captureAux_spec (line : Nat → Bool) :
    ∀ fuel i t ls j d,
      (captureAux line fuel i ⟨t, ls, j, d⟩).j
          = j + (bitsFrom line fuel i t ls).length
      ∧ (captureAux line fuel i ⟨t, ls, j, d⟩).data
          = packList d j (bitsFrom line fuel i t ls) := by
  intro fuel
  induction fuel with
  | zero => intro i t ls j d; exact ⟨rfl, rfl⟩
  | succ fuel ih =>
      intro i t ls j d
      by_cases hp : (countLevel line ls t).1 = 1000
      · constructor <;> simp [captureAux, bitsFrom, hp, packList]
      · by_cases hq : 3 < i ∧ i % 2 = 0
        · have h := ih (i + 1) ((countLevel line ls t).2 + 1)
            (line (countLevel line ls t).2) (j + 1)
            (packStep d j (bitOf (countLevel line ls t).1))
          constructor
          · simp only [captureAux, bitsFrom, if_neg hp, if_pos hq]
            rw [h.1]
            simp [List.length_cons]
            omega
          · simp only [captureAux, bitsFrom, if_neg hp, if_pos hq]
            rw [h.2]
            rfl
        · have h := ih (i + 1) ((countLevel line ls t).2 + 1)
            (line (countLevel line ls t).2) j d
          constructor
          · simp only [captureAux, bitsFrom, if_neg hp, if_neg hq]
            exact h.1
          · simp only [captureAux, bitsFrom, if_neg hp, if_neg hq]
            exact h.2

/-- The stored bits are exactly the `(i, counter)` trace entries with
`i > 3 && i % 2 == 0`, in order, each decoded through `bitOf`. -/
lemma bitsFrom_filter (line : Nat → Bool) :
    ∀ fuel i t ls,
      bitsFrom line fuel i t ls
        = ((countersFrom line fuel i t ls).filter
            (fun p => decide (3 < p.1 ∧ p.1 % 2 = 0))).map (fun p => bitOf p.2) := by
  intro fuel
  induction fuel with
  | zero => intro i t ls; rfl
  | succ fuel ih =>
      intro i t ls
      by_cases hp : (countLevel line ls t).1 = 1000
      · simp only [bitsFrom, countersFrom, if_pos hp]
        rfl
      · by_cases hq : 3 < i ∧ i % 2 = 0
        · simp only [bitsFrom, countersFrom, if_neg hp, if_pos hq]
          rw [List.filter_cons_of_pos (by simpa using hq), List.map_cons]
          rw [ih]
        · simp only [bitsFrom, countersFrom, if_neg hp, if_neg hq]
          rw [List.filter_cons_of_neg (by simpa using hq)]
          exact ih (i + 1) ((countLevel line ls t).2 + 1) (line (countLevel line ls t).2)

/-- Writes with later bit indices commute past a prefix (`packList` splits
over append). -/
lemma packList_append (bs : List Nat) :
    ∀ (cs : List Nat) (d : Nat → Nat) (j : Nat),
      packList d j (bs ++ cs) = packList (packList d j bs) (j + bs.length) cs := by
  induction bs with
  | nil => intro cs d j; simp [packList]
  | cons b bs ih =>
      intro cs d j
      have hl : j + (b :: bs).length = j + 1 + bs.length := by
        simp [List.length_cons]; omega
      simp only [List.cons_append, packList]
      rw [hl]
      exact ih cs (packStep d j b) (j + 1)

/-- Bits stored while staying inside byte `q` shift into `data[q]`
MSB-first and touch nothing else. -/
lemma packList_within (bs : List Nat) :
    ∀ (d : Nat → Nat) (q m : Nat), m + bs.length ≤ 8 →
      packList d (8 * q + m) bs
        = fun k => if k = q then byteValFrom (d q) bs else d k := by
  induction bs with
  | nil =>
      intro d q m _
      funext k
      by_cases h : k = q <;> simp [packList, byteValFrom, h]
  | cons b bs ih =>
      intro d q m hm
      simp only [List.length_cons] at hm
      have hdiv : (8 * q + m) / 8 = q := by omega
      have hstep : packStep d (8 * q + m) b
          = fun k => if k = q then 2 * d q + b else d k := by
        funext k
        simp [packStep, hdiv]
      simp only [packList, hstep]
      rw [show 8 * q + m + 1 = 8 * q + (m + 1) from by omega]
      rw [ih _ q (m + 1) (by omega)]
      funext k
      by_cases h : k = q <;> simp [h, byteValFrom]

/-- Writes of bits `j, j+1, …` with `j + count ≤ 8k` do not touch byte
`k`. -/
lemma packList_low (bs : List Nat) :
    ∀ (d : Nat → Nat) (j k : Nat), j + bs.length ≤ 8 * k →
      packList d j bs k = d k := by
  induction bs with
  | nil => intro d j k _; rfl
  | cons b bs ih =>
      intro d j k hk
      simp only [List.length_cons] at hk
      simp only [packList]
      rw [ih _ (j + 1) k (by omega)]
      have : j / 8 ≠ k := by omega
      simp [packStep, Ne.symm this]

/-- Writes of bits `j, j+1, …` with `8(k+1) ≤ j` do not touch byte `k`. -/
lemma packList_high (bs : List Nat) :
    ∀ (d : Nat → Nat) (j k : Nat), 8 * (k + 1) ≤ j →
      packList d j bs k = d k := by
  induction bs with
  | nil => intro d j k _; rfl
  | cons b bs ih =>
      intro d j k hk
      simp only [packList]
      rw [ih _ (j + 1) k (by omega)]
      have : j / 8 ≠ k := by omega
      simp [packStep, Ne.symm this]

/-- A fully stored byte `b` of a packed bit list equals the MSB-first
value of bits `8b … 8b+7`. -/
lemma packList_byte (L : List Nat) (d : Nat → Nat) (b : Nat)
    (hlen : 8 * b + 8 ≤ L.length) :
    packList d 0 L b = byteValFrom (d b) ((L.drop (8 * b)).take 8) := by
  conv_lhs => rw [← List.take_append_drop (8 * b) L]
  rw [packList_append]
  have hlt : (L.take (8 * b)).length = 8 * b := by
    rw [List.length_take]; omega
  rw [hlt]
  conv_lhs => rw [← List.take_append_drop 8 (L.drop (8 * b))]
  rw [packList_append]
  have h8 : ((L.drop (8 * b)).take 8).length = 8 := by
    rw [List.length_take, List.length_drop]; omega
  rw [h8]
  rw [packList_high _ _ _ _ (by omega)]
  rw [show (0 + 8 * b : Nat) = 8 * b + 0 from by omega]
  rw [packList_within _ _ b 0 (by rw [h8])]
  have hdb : packList d 0 (L.take (8 * b)) b = d b :=
    packList_low _ _ _ _ (by rw [hlt]; omega)
  simp [hdb]

/-! ### C8: bit selection and MSB-first packing -/

/-- C8: bits are produced exactly for the transitions with capture index
`> 3` and even (in order, so the first bit comes from index 4), and the
stored bits fill the `data` bytes MSB-first, 8 bits per byte, in order. -/
theorem bit_selection_and_packing (line : Nat → Bool) (g : Nat → Nat) (t0 b : Nat) :
    (captureRun line g t0).j
      = (((countersFrom line DHT_MAXTIMINGS 0 t0 true).filter
            (fun p => decide (3 < p.1 ∧ p.1 % 2 = 0))).map (fun p => bitOf p.2)).length
    ∧ (8 * b + 8 ≤ (((countersFrom line DHT_MAXTIMINGS 0 t0 true).filter
            (fun p => decide (3 < p.1 ∧ p.1 % 2 = 0))).map (fun p => bitOf p.2)).length →
        b < 5 →
        (captureRun line g t0).data b
          = byteValFrom 0
              (((((countersFrom line DHT_MAXTIMINGS 0 t0 true).filter
                    (fun p => decide (3 < p.1 ∧ p.1 % 2 = 0))).map
                  (fun p => bitOf p.2)).drop (8 * b)).take 8)) := by
  have hb := bitsFrom_filter line DHT_MAXTIMINGS 0 t0 true
  have hs := captureAux_spec line DHT_MAXTIMINGS 0 t0 true 0 (initData g)
  rw [← hb]
  constructor
  · rw [show (captureRun line g t0).j
        = (captureAux line DHT_MAXTIMINGS 0 ⟨t0, true, 0, initData g⟩).j from rfl,
      hs.1]
    exact Nat.zero_add _
  · intro hlen hb5
    have h2 : (captureRun line g t0).data b
        = packList (initData g) 0 (bitsFrom line DHT_MAXTIMINGS 0 t0 true) b := by
      rw [show (captureRun line g t0).data
          = (captureAux line DHT_MAXTIMINGS 0 ⟨t0, true, 0, initData g⟩).data from rfl,
        hs.2]
    rw [h2, packList_byte _ _ _ hlen]
    simp [initData, hb5]

set_option maxRecDepth 100000 in
/-- Witness for C8 on `lineStall39`: 39 bits are selected and byte 0 packs
the first eight of them. -/
theorem bit_selection_and_packing_case :
    (captureRun lineStall39 (fun _ => 0) 1).j
      = (((countersFrom lineStall39 DHT_MAXTIMINGS 0 1 true).filter
            (fun p => decide (3 < p.1 ∧ p.1 % 2 = 0))).map (fun p => bitOf p.2)).length
    ∧ (captureRun lineStall39 (fun _ => 0) 1).data 0
      = byteValFrom 0
          (((((countersFrom lineStall39 DHT_MAXTIMINGS 0 1 true).filter
                (fun p => decide (3 < p.1 ∧ p.1 % 2 = 0))).map
              (fun p => bitOf p.2)).drop (8 * 0)).take 8) :=
  ⟨(bit_selection_and_packing lineStall39 (fun _ => 0) 1 0).1,
   (bit_selection_and_packing lineStall39 (fun _ => 0) 1 0).2 (by decide) (by decide)⟩

/-! ### C10: the capture loop can overrun `data[100]` -/

/-- The oscillating line reads low at odd read indices. -/
lemma lineOsc_odd (t : Nat) (h : t % 2 = 1) : lineOsc t = false := by
  simp [lineOsc]
  omega

/-- The oscillating line reads high at non-zero even read indices. -/
lemma lineOsc_even_pos (t : Nat) (h : t % 2 = 0) (h0 : t ≠ 0) :
    lineOsc t = true := by
  simp [lineOsc]
  exact ⟨h0, h⟩

/-- A mismatching first read ends the level measurement immediately. -/
lemma countLevelAux_mismatch (line : Nat → Bool) (ls : Bool)
    (fuel t c : Nat) (h : line t ≠ ls) :
    countLevelAux line ls (fuel + 1) t c = (c, t + 1) := by
  simp [countLevelAux, h]

/-- On the oscillating line each level measurement from an odd read index
returns duration 0. -/
lemma countLevel_osc (t : Nat) (h : t % 2 = 1) :
    countLevel lineOsc true t = (0, t + 1) := by
  show countLevelAux lineOsc true (999 + 1) t 0 = (0, t + 1)
  exact countLevelAux_mismatch lineOsc true 999 t 0 (by simp [lineOsc_odd t h])

/-- On the oscillating line the capture loop never stalls: it runs through
all its fuel and stores one bit per qualifying index. -/
lemma captureAux_osc :
    ∀ fuel i t j d, t % 2 = 1 →
      (captureAux lineOsc fuel i ⟨t, true, j, d⟩).j = j + storeCount fuel i := by
  intro fuel
  induction fuel with
  | zero => intro i t j d _; simp [captureAux, storeCount]
  | succ fuel ih =>
      intro i t j d ht
      have hcl : countLevel lineOsc true t = (0, t + 1) := countLevel_osc t ht
      have hls : lineOsc (t + 1) = true :=
        lineOsc_even_pos (t + 1) (by omega) (by omega)
      by_cases hq : 3 < i ∧ i % 2 = 0
      · simp only [captureAux, hcl, hls, storeCount, if_pos hq]
        norm_num
        rw [ih (i + 1) (t + 2) (j + 1) (packStep d j (bitOf 0)) (by omega)]
        omega
      · simp only [captureAux, hcl, hls, storeCount, if_neg hq]
        norm_num
        rw [ih (i + 1) (t + 2) j d (by omega)]

/-- Unfolding equation for `storeCount`. -/
lemma storeCount_succ (fuel i : Nat) :
    storeCount (fuel + 1) i
      = (if 3 < i ∧ i % 2 = 0 then 1 else 0) + storeCount fuel (i + 1) := rfl

/-- Closed form: past index 3, every other index stores a bit. -/
lemma storeCount_closed :
    ∀ fuel i, 3 < i → storeCount fuel i = (fuel + 1 - i % 2) / 2 := by
  intro fuel
  induction fuel with
  | zero => intro i _; simp [storeCount]; omega
  | succ fuel ih =>
      intro i hi
      rw [storeCount_succ, ih (i + 1) (by omega)]
      by_cases h2 : i % 2 = 0
      · rw [if_pos ⟨hi, h2⟩]
        omega
      · rw [if_neg (fun hc => h2 hc.2)]
        omega

/-- On the oscillating line the capture loop stores 4998 bits: indices
4, 6, …, 9998 of the full 10000-iteration run. -/
lemma captureRun_osc_j : (captureRun lineOsc (fun _ => 0) 1).j = 4998 := by
  show (captureAux lineOsc DHT_MAXTIMINGS 0 ⟨1, true, 0, initData fun _ => 0⟩).j = 4998
  rw [captureAux_osc DHT_MAXTIMINGS 0 1 0 (initData fun _ => 0) (by norm_num)]
  have e0 : storeCount 10000 0 = storeCount 9999 1 := by
    rw [show (10000 : Nat) = 9999 + 1 from rfl, storeCount_succ]; simp
  have e1 : storeCount 9999 1 = storeCount 9998 2 := by
    rw [show (9999 : Nat) = 9998 + 1 from rfl, storeCount_succ]; simp
  have e2 : storeCount 9998 2 = storeCount 9997 3 := by
    rw [show (9998 : Nat) = 9997 + 1 from rfl, storeCount_succ]; simp
  have e3 : storeCount 9997 3 = storeCount 9996 4 := by
    rw [show (9997 : Nat) = 9996 + 1 from rfl, storeCount_succ]; simp
  rw [show DHT_MAXTIMINGS = 10000 from rfl, e0, e1, e2, e3,
    storeCount_closed 9996 4 (by norm_num)]

/-- C10 (refuted): it is not true that every bit-packing write of the
capture loop targets an index below 100 — on the oscillating line the loop
stores 4998 bits, so bit 4997 is written to `data[4997/8] = data[624]`,
far past the 100-entry array of the source. -/
theorem capture_write_overruns_buffer :
    ¬ (∀ (line : Nat → Bool) (g : Nat → Nat) (t0 k : Nat),
          k < (captureRun line g t0).j → k / 8 < 100)
    ∧ (captureRun lineOsc (fun _ => 0) 1).j = 4998 := by
  constructor
  · intro hcl
    have h := hcl lineOsc (fun _ => 0) 1 4997 (by rw [captureRun_osc_j]; omega)
    omega
  · exact captureRun_osc_j
